import Mathlib

/-!
Shallow embedding of `pyxtermjs/app.py` (the pseudo-terminal session core:
the `connect`, `pty-input` and `resize` socket handlers, `set_winsize`, and
the `read_and_forward_pty_output` background loop), together with theorems
settling the specification claims about it.

Conventions of the embedding:
* `app.config` entries mutated by the session core (`fd`, `child_pid`) and the
  immutable startup entries (`cmd`, `useTmp`) form an `AppConfig` record.
  Python `None` is `Option.none`; Python truthiness of an integer-or-None
  config entry is `truthy` (None and 0 are falsy).
* OS and transport side effects (pty.fork, ioctl, os.write, socketio.emit,
  socketio.sleep, select.select, os.read, start_background_task) are recorded
  as an `Event` trace; the results the OS hands back (fork pid/fd, select
  readiness, read results) are inputs to the embedded functions.
* Byte strings are `List Nat` (byte values); Python text strings are
  `List Nat` (Unicode code points). `str.encode()` is `encodeUtf8`;
  `bytes.decode` with `errors='ignore'` is `decodeIgnore`, and the strict
  decoder `utf8DecodeStrict` characterises the inputs on which a plain
  `decode()` would raise.
-/

namespace Pyxtermjs

/-- The mutable/config state of the Flask app that the session core touches:
`app.config["fd"]`, `app.config["child_pid"]` (both `None` at startup,
lines 25-26 of app.py) plus the startup-time command spec. -/
structure AppConfig where
  fd : Option Nat
  child_pid : Option Nat
  cmd : List String
  useTmp : Bool
deriving DecidableEq, Repr

/-- Python truthiness of an integer-or-None value: `None` and `0` are falsy,
every other integer is truthy.  This is the test `if app.config["fd"]:`
and `if app.config["child_pid"]:` in the source. -/
def truthy : Option Nat → Bool
  | none => false
  | some n => n != 0

/-- The state of `app.config` at module import time (app.py lines 25-26):
`fd = None`, `child_pid = None`; `cmd` and `useTmp` are filled in by `main`
before any handler runs. -/
def initialConfig (cmd : List String) (useTmp : Bool) : AppConfig :=
  { fd := none, child_pid := none, cmd := cmd, useTmp := useTmp }

/-- Observable side effects of the session core, in program order. -/
inductive Event where
  /-- Python `pty.fork()` was executed (a child process attached to a pty exists). -/
  | spawn
  /-- Call of `fcntl.ioctl(fd, TIOCSWINSZ, struct.pack("HHHH", row, col, xpix, ypix))`. -/
  | setWinsize (fd : Nat) (row col xpix ypix : Int)
  /-- Call of `socketio.start_background_task(target=read_and_forward_pty_output)`. -/
  | startPump
  /-- Call of `os.write(fd, bytes)`. -/
  | write (fd : Nat) (bytes : List Nat)
  /-- Emission `socketio.emit("pty-output", ...)` carrying the decoded text. -/
  | emitOutput (text : List Nat)
  /-- Call of `socketio.sleep` for the given number of milliseconds. -/
  | sleep (ms : Nat)
  /-- Readiness check `select.select([fd], [], [], timeout)`. -/
  | selectCheck (fd : Nat) (timeoutSec : Nat)
  /-- Read `os.read(fd, maxBytes)` was issued. -/
  | readPty (fd : Nat) (maxBytes : Nat)
deriving DecidableEq, Repr

/-! ### UTF-8 encoding and decoding

`pty_input` writes `data["input"].encode()` (UTF-8 encode) and the pump
decodes `os.read(..)` output with `decode(errors='ignore')`.  The decoder
below follows CPython's UTF-8 acceptor (rejecting continuation-byte leads,
overlong leads C0/C1, surrogate range via the ED restriction, values above
U+10FFFF via the F4 restriction and F5..FF) and, on an invalid sequence, the
`ignore` handler drops the maximal valid prefix of that sequence and
continues. -/

/-- UTF-8 encoding of one code point (Python `str.encode()` per character). -/
def encodeChar (c : Nat) : List Nat :=
  if c < 128 then [c]
  else if c < 2048 then [192 + c / 64, 128 + c % 64]
  else if c < 65536 then [224 + c / 4096, 128 + c / 64 % 64, 128 + c % 64]
  else [240 + c / 262144, 128 + c / 4096 % 64, 128 + c / 64 % 64, 128 + c % 64]

/-- UTF-8 encoding of a string of code points (Python `str.encode()`). -/
def encodeUtf8 (s : List Nat) : List Nat :=
  (s.map encodeChar).flatten

/-- Is `b` a UTF-8 continuation byte (0x80..0xBF)? -/
def isCont (b : Nat) : Bool :=
  128 ≤ b && b ≤ 191

/-- Decode one UTF-8 sequence starting at lead byte `b` with the remaining
bytes `rest`.  Returns the decoded code point (or `none` when the sequence is
ill-formed) and the bytes not consumed.  On an ill-formed sequence the
maximal valid subpart (lead plus valid continuation bytes) is consumed, as
CPython's decoder does. -/
def decodeOne (b : Nat) (rest : List Nat) : Option Nat × List Nat :=
  if b ≤ 127 then (some b, rest)
  else if b ≤ 193 then (none, rest)
  else if b ≤ 223 then
    match rest with
    | [] => (none, [])
    | b1 :: r1 =>
      if isCont b1 then (some ((b - 192) * 64 + (b1 - 128)), r1)
      else (none, b1 :: r1)
  else if b ≤ 239 then
    let lo1 : Nat := if b = 224 then 160 else 128
    let hi1 : Nat := if b = 237 then 159 else 191
    match rest with
    | [] => (none, [])
    | b1 :: r1 =>
      if lo1 ≤ b1 && b1 ≤ hi1 then
        match r1 with
        | [] => (none, [])
        | b2 :: r2 =>
          if isCont b2 then
            (some ((b - 224) * 4096 + (b1 - 128) * 64 + (b2 - 128)), r2)
          else (none, b2 :: r2)
      else (none, b1 :: r1)
  else if b ≤ 244 then
    let lo1 : Nat := if b = 240 then 144 else 128
    let hi1 : Nat := if b = 244 then 143 else 191
    match rest with
    | [] => (none, [])
    | b1 :: r1 =>
      if lo1 ≤ b1 && b1 ≤ hi1 then
        match r1 with
        | [] => (none, [])
        | b2 :: r2 =>
          if isCont b2 then
            match r2 with
            | [] => (none, [])
            | b3 :: r3 =>
              if isCont b3 then
                (some ((b - 240) * 262144 + (b1 - 128) * 4096 +
                  (b2 - 128) * 64 + (b3 - 128)), r3)
              else (none, b3 :: r3)
          else (none, b2 :: r2)
      else (none, b1 :: r1)
  else (none, rest)

theorem decodeOne_len (b : Nat) (rest : List Nat) :
    (decodeOne b rest).2.length ≤ rest.length := by
  rcases rest with _ | ⟨b1, _ | ⟨b2, _ | ⟨b3, r3⟩⟩⟩ <;>
    simp only [decodeOne] <;> repeat' split
  all_goals simp [List.length]
  all_goals omega

/-- Fuel-driven scan of a byte string into its per-sequence decode results;
`decodeOne` consumes at least the lead byte each step, so fuel
`bs.length` always suffices. -/
def decodeSeqFuel : Nat → List Nat → List (Option Nat)
  | _, [] => []
  | 0, _ :: _ => []
  | fuel + 1, b :: rest =>
    (decodeOne b rest).1 :: decodeSeqFuel fuel (decodeOne b rest).2

/-- Scan a byte string into its per-sequence decode results: `some c` for
each well-formed sequence, `none` for each ill-formed one encountered. -/
def decodeSeq (bs : List Nat) : List (Option Nat) :=
  decodeSeqFuel bs.length bs

theorem decodeSeqFuel_congr (f1 : Nat) :
    ∀ (f2 : Nat) (bs : List Nat), bs.length ≤ f1 → bs.length ≤ f2 →
      decodeSeqFuel f1 bs = decodeSeqFuel f2 bs := by
  induction f1 with
  | zero =>
    intro f2 bs h1 h2
    cases bs with
    | nil => cases f2 <;> rfl
    | cons b rest => simp at h1
  | succ f1 ih =>
    intro f2 bs h1 h2
    cases bs with
    | nil => cases f2 <;> rfl
    | cons b rest =>
      cases f2 with
      | zero => simp at h2
      | succ f2 =>
        have hlen := decodeOne_len b rest
        simp only [List.length_cons] at h1 h2
        simp only [decodeSeqFuel]
        rw [ih f2 (decodeOne b rest).2 (by omega) (by omega)]

/-- Unfolding equation of `decodeSeq` at a nonempty byte string. -/
theorem decodeSeq_cons (b : Nat) (rest : List Nat) :
    decodeSeq (b :: rest) =
      (decodeOne b rest).1 :: decodeSeq (decodeOne b rest).2 := by
  simp only [decodeSeq, List.length_cons, decodeSeqFuel]
  rw [decodeSeqFuel_congr rest.length (decodeOne b rest).2.length
    (decodeOne b rest).2 (decodeOne_len b rest) le_rfl]

/-- Python `bytes.decode(errors='ignore')`: total, drops ill-formed
sequences, keeps decoding the rest. -/
def decodeIgnore (bs : List Nat) : List Nat :=
  (decodeSeq bs).reduceOption

/-- Python strict `bytes.decode()`: `none` exactly when CPython would raise
`UnicodeDecodeError` (some scanned sequence is ill-formed), otherwise the
decoded code points. -/
def utf8DecodeStrict (bs : List Nat) : Option (List Nat) :=
  if (decodeSeq bs).all Option.isSome then some (decodeSeq bs).reduceOption
  else none

/-! ### The socket handlers -/

/-- Function `set_winsize(fd, row, col, xpix=0, ypix=0)` (app.py lines 31-34): packs
`struct.pack("HHHH", row, col, xpix, ypix)` and issues the `TIOCSWINSZ`
ioctl.  `struct.pack` with format `H` raises `struct.error` for a value
outside `0..65535`; the embedding returns `Except.error` there (no ioctl
happens) and otherwise the ioctl event. -/
def set_winsize (fd : Nat) (row col xpix ypix : Int) : Except String Event :=
  if 0 ≤ row ∧ row < 65536 ∧ 0 ≤ col ∧ col < 65536 ∧
      0 ≤ xpix ∧ xpix < 65536 ∧ 0 ≤ ypix ∧ ypix < 65536 then
    Except.ok (Event.setWinsize fd row col xpix ypix)
  else
    Except.error "struct.error: argument out of range for format H"

/-- The `pty-input` handler (app.py lines 59-66): if `app.config["fd"]` is
truthy, write `data["input"].encode()` to the fd; otherwise fall through
doing nothing.  `input` is the text of `data["input"]` as code points.
Returns the events performed; the state is never modified. -/
def pty_input (s : AppConfig) (input : List Nat) : List Event :=
  if truthy s.fd then
    [Event.write (s.fd.getD 0) (encodeUtf8 input)]
  else
    []

/-- The `resize` handler (app.py lines 69-73): if `app.config["fd"]` is
truthy and both `"rows"` and `"cols"` keys are present in the message, call
`set_winsize(fd, rows, cols)`; otherwise fall through doing nothing.
`rows`/`cols` are `none` when the key is absent.  An `Except.error` is the
uncaught `struct.error` escaping the handler. -/
def resize (s : AppConfig) (rows cols : Option Int) :
    Except String (List Event) :=
  if truthy s.fd && rows.isSome && cols.isSome then
    match set_winsize (s.fd.getD 0) (rows.getD 0) (cols.getD 0) 0 0 with
    | Except.ok e => Except.ok [e]
    | Except.error m => Except.error m
  else
    Except.ok []

/-- The parent-process side of the `connect` handler (app.py lines 76-112):
when `app.config["child_pid"]` is truthy, return at once (no event, no state
change); otherwise `pty.fork()` runs (the `forkPid`/`forkFd` arguments are
what the fork returns in the parent: the child's pid and the pty master fd),
`fd` and `child_pid` are stored, `set_winsize(fd, 50, 50)` runs, and one
background pump task is started. -/
def connect (s : AppConfig) (forkPid forkFd : Nat) : AppConfig × List Event :=
  if truthy s.child_pid then
    (s, [])
  else
    ({ s with fd := some forkFd, child_pid := some forkPid },
     [Event.spawn, Event.setWinsize forkFd 50 50 0 0, Event.startPump])

/-! ### The child branch of `connect`

In the `child_pid == 0` branch (app.py lines 86-95) the child enters
`while True:` and each pass either makes a temp dir and runs the configured
command there, or just runs the command.  The body contains no `break` or
`return`, so every pass continues the loop. -/

/-- Loop-control outcome of one pass of a `while` body. -/
inductive LoopCtl where
  | cont
  | brk
deriving DecidableEq, Repr

/-- What the child branch has done so far: temp dirs created by
`tempfile.mkdtemp()` and the `subprocess.run` invocations issued, in
order. -/
structure ChildTrace where
  tmpDirs : Nat
  runs : List (List String)
deriving DecidableEq, Repr

/-- One pass of the child's `while True:` body (app.py lines 87-95). -/
def childBody (s : AppConfig) (t : ChildTrace) : LoopCtl × ChildTrace :=
  if s.useTmp then
    (LoopCtl.cont, { tmpDirs := t.tmpDirs + 1, runs := t.runs ++ [s.cmd] })
  else
    (LoopCtl.cont, { t with runs := t.runs ++ [s.cmd] })

/-- The child's loop after `n` passes of the body. -/
def childLoop (s : AppConfig) : Nat → ChildTrace → ChildTrace
  | 0, t => t
  | n + 1, t => childLoop s n (childBody s t).2

/-! ### The output pump

`read_and_forward_pty_output` (app.py lines 37-46) loops forever: sleep
0.01 s (10 ms), and if `app.config["fd"]` is truthy, `select.select` on it
with timeout 0; when data is ready, `os.read(fd, 20480)` and emit one
`pty-output` event with the `errors='ignore'`-decoded text.  A read that
raises `OSError` is not caught: the exception escapes the loop and the
background task dies.  The loop body never assigns any state. -/

/-- What `os.read` hands back: some bytes (possibly zero of them, the EOF
convention), or an `OSError` with an errno. -/
inductive ReadResult where
  | ok (bytes : List Nat)
  | err (errno : Nat)
deriving DecidableEq, Repr

/-- Constant `max_read_bytes = 1024 * 20` (app.py line 38). -/
def max_read_bytes : Nat := 1024 * 20

/-- One iteration of the `while True:` loop of
`read_and_forward_pty_output`.  `dataReady` is what `select.select` reports;
`readRes` is what `os.read` would hand back if reached.  Returns the
(unchanged) state, the events in order, and `some errno` when an uncaught
`OSError` escapes the iteration (killing the loop). -/
def pumpIteration (s : AppConfig) (dataReady : Bool) (readRes : ReadResult) :
    AppConfig × List Event × Option Nat :=
  if truthy s.fd then
    let f := s.fd.getD 0
    if dataReady then
      match readRes with
      | ReadResult.ok bytes =>
        (s, [Event.sleep 10, Event.selectCheck f 0,
             Event.readPty f max_read_bytes,
             Event.emitOutput (decodeIgnore bytes)], none)
      | ReadResult.err e =>
        (s, [Event.sleep 10, Event.selectCheck f 0,
             Event.readPty f max_read_bytes], some e)
    else
      (s, [Event.sleep 10, Event.selectCheck f 0], none)
  else
    (s, [Event.sleep 10], none)

/-- The pump loop over a sequence of per-iteration OS responses; stops (with
the errno) as soon as an iteration raises. -/
def pumpRun (s : AppConfig) :
    List (Bool × ReadResult) → List Event × Option Nat
  | [] => ([], none)
  | (dr, rr) :: rest =>
    match (pumpIteration s dr rr).2.2 with
    | none =>
      ((pumpIteration s dr rr).2.1 ++ (pumpRun s rest).1, (pumpRun s rest).2)
    | some e => ((pumpIteration s dr rr).2.1, some e)

/-- The `pty-output` emissions contained in an event trace, in order. -/
def outputsOf (evs : List Event) : List (List Nat) :=
  evs.filterMap fun e =>
    match e with
    | Event.emitOutput o => some o
    | _ => none

/-! ### Sequential operational semantics

The transport delivers connect / input / resize events to the handlers and
the pump loop interleaves its iterations; each handler invocation and each
pump iteration is one `Op`. -/

/-- One delivered event or pump iteration. -/
inductive Op where
  | connectOp (forkPid forkFd : Nat)
  | inputOp (input : List Nat)
  | resizeOp (rows cols : Option Int)
  | pumpOp (dataReady : Bool) (readRes : ReadResult)
deriving DecidableEq, Repr

/-- Effect of one `Op` on the app state, with the events it performs.  A
`resize` whose `struct.pack` raises performs no event (the exception aborts
the handler before the ioctl and changes no state). -/
def step (s : AppConfig) : Op → AppConfig × List Event
  | Op.connectOp p f => connect s p f
  | Op.inputOp i => (s, pty_input s i)
  | Op.resizeOp r c =>
    (s, match resize s r c with
        | Except.ok evs => evs
        | Except.error _ => [])
  | Op.pumpOp dr rr => ((pumpIteration s dr rr).1, (pumpIteration s dr rr).2.1)

/-- Run a sequence of operations, collecting all events in order. -/
def runOps (s : AppConfig) : List Op → AppConfig × List Event
  | [] => (s, [])
  | op :: ops =>
    ((runOps (step s op).1 ops).1,
     (step s op).2 ++ (runOps (step s op).1 ops).2)

/-! ### Two racing connect handlers

For the concurrency claim, a `connect` handler invocation is split at
instruction granularity into its check (`if app.config["child_pid"]:`) and
its act (`pty.fork` plus the stores, winsize and task start): the source has
no lock, so a scheduler may interleave the two handlers' steps freely.  A
serialized schedule runs one handler to completion before the other
starts. -/

/-- Program counter of one in-flight `connect` handler. -/
inductive HandlerPC where
  | start
  | afterCheck
  | done
deriving DecidableEq, Repr

/-- Advance one handler by one instruction against the shared state. -/
def handlerStep (s : AppConfig) (pc : HandlerPC) (forkPid forkFd : Nat) :
    AppConfig × HandlerPC × List Event :=
  match pc with
  | HandlerPC.start =>
    if truthy s.child_pid then (s, HandlerPC.done, [])
    else (s, HandlerPC.afterCheck, [])
  | HandlerPC.afterCheck =>
    ({ s with fd := some forkFd, child_pid := some forkPid },
     HandlerPC.done,
     [Event.spawn, Event.setWinsize forkFd 50 50 0 0, Event.startPump])
  | HandlerPC.done => (s, HandlerPC.done, [])

/-- Shared state plus the two handlers' program counters and the event
trace. -/
structure RaceState where
  cfg : AppConfig
  pcA : HandlerPC
  pcB : HandlerPC
  events : List Event
deriving DecidableEq, Repr

/-- One scheduler step: `true` advances handler A, `false` handler B. -/
def raceStep (forkA forkB : Nat × Nat) (st : RaceState) (choice : Bool) :
    RaceState :=
  if choice then
    let (c, pc, evs) := handlerStep st.cfg st.pcA forkA.1 forkA.2
    { st with cfg := c, pcA := pc, events := st.events ++ evs }
  else
    let (c, pc, evs) := handlerStep st.cfg st.pcB forkB.1 forkB.2
    { st with cfg := c, pcB := pc, events := st.events ++ evs }

/-- Run a schedule of choices over the two racing handlers. -/
def raceRun (s : AppConfig) (forkA forkB : Nat × Nat) (sched : List Bool) :
    RaceState :=
  sched.foldl (raceStep forkA forkB) ⟨s, HandlerPC.start, HandlerPC.start, []⟩

/-- Number of `pty.fork` spawns in a trace. -/
def spawnCount (evs : List Event) : Nat :=
  evs.countP fun e =>
    match e with
    | Event.spawn => true
    | _ => false

/-- Number of pump tasks started in a trace. -/
def pumpCount (evs : List Event) : Nat :=
  evs.countP fun e =>
    match e with
    | Event.startPump => true
    | _ => false

/-! ### Shared lemmas -/

/-- A concrete running-session state: fd 3 and child pid 7 stored, the
default command. Used by the concrete theorems below. -/
def runningCfg : AppConfig :=
  { fd := some 3, child_pid := some 7, cmd := ["bash"], useTmp := false }

theorem truthy_some {p : Nat} (h : p ≠ 0) : truthy (some p) = true := by
  simp [truthy]
  exact h

theorem pumpIteration_state (s : AppConfig) (dr : Bool) (rr : ReadResult) :
    (pumpIteration s dr rr).1 = s := by
  unfold pumpIteration
  split_ifs <;> cases rr <;> rfl

theorem step_preserves {s : AppConfig} {f p : Nat} (hf : s.fd = some f)
    (hp : s.child_pid = some p) (hp0 : p ≠ 0) (op : Op) :
    (step s op).1.fd = some f ∧ (step s op).1.child_pid = some p := by
  cases op with
  | connectOp q g =>
    simp [step, connect, hp, truthy_some hp0, hf]
  | inputOp i => exact ⟨hf, hp⟩
  | resizeOp r c => exact ⟨hf, hp⟩
  | pumpOp dr rr =>
    refine ⟨?_, ?_⟩ <;> simp [step, pumpIteration_state, hf, hp]

theorem runOps_preserves {f p : Nat} (hp0 : p ≠ 0) (ops : List Op) :
    ∀ s : AppConfig, s.fd = some f → s.child_pid = some p →
      (runOps s ops).1.fd = some f ∧ (runOps s ops).1.child_pid = some p := by
  induction ops with
  | nil => intro s hf hp; exact ⟨hf, hp⟩
  | cons op ops ih =>
    intro s hf hp
    have h1 := step_preserves hf hp hp0 op
    exact ih (step s op).1 h1.1 h1.2

theorem outputsOf_append (a b : List Event) :
    outputsOf (a ++ b) = outputsOf a ++ outputsOf b := by
  simp [outputsOf, List.filterMap_append]

theorem runOps_connects_noop {s : AppConfig} (h : truthy s.child_pid = true)
    (others : List (Nat × Nat)) :
    runOps s (others.map fun r => Op.connectOp r.1 r.2) = (s, []) := by
  induction others with
  | nil => rfl
  | cons hd tl ih =>
    simp only [List.map_cons, runOps, step, connect, h, if_pos]
    rw [ih]
    rfl

/-! ### Claim theorems -/

/-- C1: from the initial state (no stored child pid), the first delivered
connect performs exactly the trace spawn, `set_winsize(fd, 50, 50)`, start
one pump task — so the default window size is set before any client resize
can be routed — and any number of later connects while the pid is stored
perform nothing, so the whole run has exactly one spawn and exactly one
pump-task start, with the fork's fd and pid stored. -/
theorem connect_spawns_once (p f : Nat) (others : List (Nat × Nat))
    (cmd : List String) (useTmp : Bool) (hp : p ≠ 0) :
    (runOps (initialConfig cmd useTmp)
        (Op.connectOp p f :: others.map fun r => Op.connectOp r.1 r.2)).2 =
      [Event.spawn, Event.setWinsize f 50 50 0 0, Event.startPump]
    ∧ spawnCount (runOps (initialConfig cmd useTmp)
        (Op.connectOp p f :: others.map fun r => Op.connectOp r.1 r.2)).2 = 1
    ∧ pumpCount (runOps (initialConfig cmd useTmp)
        (Op.connectOp p f :: others.map fun r => Op.connectOp r.1 r.2)).2 = 1
    ∧ (runOps (initialConfig cmd useTmp)
        (Op.connectOp p f :: others.map fun r => Op.connectOp r.1 r.2)).1.fd =
        some f
    ∧ (runOps (initialConfig cmd useTmp)
        (Op.connectOp p f :: others.map fun r => Op.connectOp r.1 r.2)).1.child_pid =
        some p := by
  have h1 : step (initialConfig cmd useTmp) (Op.connectOp p f) =
      ({ fd := some f, child_pid := some p, cmd := cmd, useTmp := useTmp },
       [Event.spawn, Event.setWinsize f 50 50 0 0, Event.startPump]) := by
    simp [step, connect, initialConfig, truthy]
  have h2 := runOps_connects_noop
    (s := { fd := some f, child_pid := some p, cmd := cmd, useTmp := useTmp })
    (truthy_some hp) others
  simp only [runOps, h1, h2]
  simp [spawnCount, pumpCount]

/-- C1 witness at a concrete run: first connect (pid 7, fd 3) followed by a
second connect (pid 9, fd 5). -/
theorem connect_spawns_once_witness :
    (runOps (initialConfig ["bash"] false)
        (Op.connectOp 7 3 ::
          [((9 : Nat), (5 : Nat))].map fun r => Op.connectOp r.1 r.2)).2 =
      [Event.spawn, Event.setWinsize 3 50 50 0 0, Event.startPump] := by
  exact (connect_spawns_once 7 3 [(9, 5)] ["bash"] false (by decide)).1

/-- C2: with a pty attached (fd stored and truthy), a sequence of delivered
input messages produces exactly one `os.write` per message, carrying exactly
the encoded bytes of that message and nothing else, in delivery order, and
changes no state; with no fd stored, every delivered input performs nothing
and raises nothing. -/
theorem pty_input_exact_bytes (s : AppConfig) (f : Nat)
    (inputs : List (List Nat)) :
    (s.fd = some f → f ≠ 0 →
      runOps s (inputs.map Op.inputOp) =
        (s, inputs.map fun i => Event.write f (encodeUtf8 i)))
    ∧ (s.fd = none → runOps s (inputs.map Op.inputOp) = (s, [])) := by
  induction inputs with
  | nil => exact ⟨fun _ _ => rfl, fun _ => rfl⟩
  | cons i tl ih =>
    constructor
    · intro hf hf0
      have ht : truthy s.fd = true := by rw [hf]; exact truthy_some hf0
      simp only [List.map_cons, runOps, step, pty_input, ht, if_pos]
      rw [ih.1 hf hf0]
      simp [hf]
    · intro hf
      have ht : truthy s.fd = false := by rw [hf]; rfl
      simp only [List.map_cons, runOps, step, pty_input, ht]
      rw [ih.2 hf]
      simp

/-- C2 witness: two concrete inputs against the running state write exactly
their bytes in order; the same inputs against the initial state write
nothing. -/
theorem pty_input_exact_bytes_witness :
    runOps runningCfg ([[104], [105, 33]].map Op.inputOp) =
      (runningCfg,
       [[104], [105, 33]].map fun i => Event.write 3 (encodeUtf8 i))
    ∧ runOps (initialConfig ["bash"] false)
        ([[104], [105, 33]].map Op.inputOp) =
      (initialConfig ["bash"] false, []) :=
  ⟨(pty_input_exact_bytes runningCfg 3 [[104], [105, 33]]).1 rfl (by decide),
   (pty_input_exact_bytes (initialConfig ["bash"] false) 3
     [[104], [105, 33]]).2 rfl⟩

/-- C3 counterexample: the pump body does not test the read result for
emptiness — with a truthy fd and `select` reporting ready, a zero-length
`os.read` still emits a `pty-output` event (with empty text), so "a
zero-length read is never forwarded as an output event" is false. -/
theorem pump_forwards_empty_read :
    Event.emitOutput [] ∈
      (pumpIteration runningCfg true (ReadResult.ok [])).2.1 := by
  decide

/-- C3 amended: one `pty-output` event is emitted per performed read (ready
fd), carrying exactly the decode-tolerant text of the bytes read, in read
order — including zero-length reads, which are forwarded as empty output
events rather than suppressed. -/
theorem pump_one_event_per_read (s : AppConfig) (reads : List (List Nat))
    (ht : truthy s.fd = true) :
    outputsOf
        (pumpRun s (reads.map fun bs => (true, ReadResult.ok bs))).1 =
      reads.map decodeIgnore
    ∧ (pumpRun s (reads.map fun bs => (true, ReadResult.ok bs))).2 = none := by
  induction reads with
  | nil => exact ⟨rfl, rfl⟩
  | cons bs tl ih =>
    have hit : pumpIteration s true (ReadResult.ok bs) =
        (s, [Event.sleep 10, Event.selectCheck (s.fd.getD 0) 0,
             Event.readPty (s.fd.getD 0) max_read_bytes,
             Event.emitOutput (decodeIgnore bs)], none) := by
      simp [pumpIteration, ht]
    simp only [List.map_cons, pumpRun, hit]
    refine ⟨?_, ih.2⟩
    rw [outputsOf_append, ih.1]
    simp [outputsOf]

/-- C3 amended witness: three reads — "hi", empty, "!" — produce exactly
three output events with those contents in order. -/
theorem pump_one_event_per_read_witness :
    outputsOf
        (pumpRun runningCfg
          ([[104, 105], [], [33]].map fun bs => (true, ReadResult.ok bs))).1 =
      [[104, 105], [], [33]].map decodeIgnore :=
  (pump_one_event_per_read runningCfg [[104, 105], [], [33]] (by decide)).1

/-- C4: every pump iteration starts with the fixed 10 ms sleep; when no fd
is stored the iteration does nothing else; and every `os.read` issued is
bounded by `max_read_bytes` (20480) and happens only with a truthy fd,
after a `select` readiness check with timeout 0 reported data — so no
iteration ever issues a read that could block. -/
theorem pump_schedule_bounds (s : AppConfig) (dr : Bool) (rr : ReadResult) :
    ((pumpIteration s dr rr).2.1).head? = some (Event.sleep 10)
    ∧ (truthy s.fd = false → (pumpIteration s dr rr).2.1 = [Event.sleep 10])
    ∧ (∀ f m, Event.readPty f m ∈ (pumpIteration s dr rr).2.1 →
        m = 20480 ∧ truthy s.fd = true ∧ dr = true ∧
          Event.selectCheck f 0 ∈ (pumpIteration s dr rr).2.1) := by
  refine ⟨?_, ?_, ?_⟩
  · by_cases ht : truthy s.fd = true <;> cases dr <;> cases rr <;>
      simp [pumpIteration, ht]
  · intro hc
    simp [pumpIteration, hc]
  · intro f m hm
    by_cases ht : truthy s.fd = true
    · cases dr with
      | false => simp [pumpIteration, ht] at hm
      | true =>
        cases rr with
        | ok bytes =>
          simp [pumpIteration, ht] at hm ⊢
          obtain ⟨hf, hmm⟩ := hm
          subst hf
          subst hmm
          simp [max_read_bytes]
        | err e =>
          simp [pumpIteration, ht] at hm ⊢
          obtain ⟨hf, hmm⟩ := hm
          subst hf
          subst hmm
          simp [max_read_bytes]
    · have ht2 : truthy s.fd = false := by simpa using ht
      simp [pumpIteration, ht2] at hm

/-- C4 witness: with a truthy fd, a ready ok-read iteration starts with the
10 ms sleep, and its read of fd 3 is 20480-bounded and preceded by a
zero-timeout select; with the initial (fd-less) state the iteration is just
the sleep. -/
theorem pump_schedule_bounds_witness :
    ((pumpIteration runningCfg true (ReadResult.ok [97])).2.1).head? =
      some (Event.sleep 10)
    ∧ (20480 = 20480 ∧ truthy runningCfg.fd = true ∧ true = true ∧
        Event.selectCheck 3 0 ∈
          (pumpIteration runningCfg true (ReadResult.ok [97])).2.1)
    ∧ (pumpIteration (initialConfig ["bash"] false) true
        (ReadResult.ok [97])).2.1 = [Event.sleep 10] :=
  ⟨(pump_schedule_bounds runningCfg true (ReadResult.ok [97])).1,
   (pump_schedule_bounds runningCfg true (ReadResult.ok [97])).2.2 3 20480
     (by decide),
   (pump_schedule_bounds (initialConfig ["bash"] false) true
     (ReadResult.ok [97])).2.1 (by decide)⟩

/-- C5 counterexample: after a pty read fails with an OS error (errno 5) the
exception escapes the loop (the pump dies), but the session does not
transition anywhere: the state is unchanged — fd and child pid still
stored, nothing released — and a subsequent input message is not a silent
no-op: it writes to the dead pty's fd. -/
theorem pump_error_keeps_session :
    (pumpIteration runningCfg true (ReadResult.err 5)).2.2 = some 5
    ∧ (pumpIteration runningCfg true (ReadResult.err 5)).1 = runningCfg
    ∧ pty_input (pumpIteration runningCfg true (ReadResult.err 5)).1 [120] =
        [Event.write 3 [120]] := by
  decide

/-- C5 amended: when a pty read fails with an OS-level error, the uncaught
exception terminates the pump loop, but no Terminated transition and no
resource release happen — the state is exactly as before, and a subsequent
input message still passes the attached check and writes its bytes to the
stored fd. -/
theorem pump_error_no_teardown (s : AppConfig) (f e : Nat) (bs : List Nat)
    (hf : s.fd = some f) (hf0 : f ≠ 0) :
    (pumpIteration s true (ReadResult.err e)).2.2 = some e
    ∧ (pumpIteration s true (ReadResult.err e)).1 = s
    ∧ pty_input (pumpIteration s true (ReadResult.err e)).1 bs =
        [Event.write f (encodeUtf8 bs)] := by
  have ht : truthy s.fd = true := by rw [hf]; exact truthy_some hf0
  refine ⟨by simp [pumpIteration, ht], pumpIteration_state s true (ReadResult.err e), ?_⟩
  rw [pumpIteration_state]
  simp [pty_input, hf, truthy_some hf0]

/-- C5 amended witness at a concrete second session state and errno 11. -/
theorem pump_error_no_teardown_witness :
    (pumpIteration
        { fd := some 4, child_pid := some 9, cmd := ["sh"], useTmp := true }
        true (ReadResult.err 11)).2.2 = some 11
    ∧ (pumpIteration
        { fd := some 4, child_pid := some 9, cmd := ["sh"], useTmp := true }
        true (ReadResult.err 11)).1 =
      { fd := some 4, child_pid := some 9, cmd := ["sh"], useTmp := true }
    ∧ pty_input (pumpIteration
        { fd := some 4, child_pid := some 9, cmd := ["sh"], useTmp := true }
        true (ReadResult.err 11)).1 [104] =
        [Event.write 4 (encodeUtf8 [104])] :=
  pump_error_no_teardown
    { fd := some 4, child_pid := some 9, cmd := ["sh"], useTmp := true }
    4 11 [104] rfl (by decide)

/-- C6 counterexample: with a session attached and both fields present but
equal to 0 — not a valid positive integer — the handler still performs the
pty resize operation (ioctl at 0×0) instead of being a no-op, so "calls the
resize operation if and only if ... both dimensions are valid positive
integers" is false. -/
theorem resize_zero_not_rejected :
    resize runningCfg (some 0) (some 0) =
      Except.ok [Event.setWinsize 3 0 0 0 0]
    ∧ ¬(0 : Int) > 0 :=
  ⟨rfl, by decide⟩

theorem resize_call {s : AppConfig} {rows cols : Option Int} {r c : Int}
    (ht : truthy s.fd = true) (hr : rows = some r) (hc : cols = some c) :
    resize s rows cols =
      match set_winsize (s.fd.getD 0) r c 0 0 with
      | Except.ok e => Except.ok [e]
      | Except.error m => Except.error m := by
  subst hr
  subst hc
  simp [resize, ht]

/-- C6 amended: the handler checks only that the fd is truthy and that both
fields are present; any absent field or unattached state is a no-op, but the
values are not validated — any value packable by `struct.pack("HHHH", ...)`
(0..65535, zero included) is passed to the ioctl, and a value outside that
range raises `struct.error` out of the handler rather than no-opping. -/
theorem resize_presence_only (s : AppConfig) (rows cols : Option Int) :
    (¬(truthy s.fd = true ∧ rows.isSome = true ∧ cols.isSome = true) →
      resize s rows cols = Except.ok [])
    ∧ (∀ r c : Int, truthy s.fd = true → rows = some r → cols = some c →
        ((0 ≤ r ∧ r < 65536 ∧ 0 ≤ c ∧ c < 65536) →
          resize s rows cols =
            Except.ok [Event.setWinsize (s.fd.getD 0) r c 0 0])
        ∧ (¬(0 ≤ r ∧ r < 65536 ∧ 0 ≤ c ∧ c < 65536) →
          resize s rows cols =
            Except.error "struct.error: argument out of range for format H")) := by
  constructor
  · intro h
    cases hb : (truthy s.fd && rows.isSome && cols.isSome) with
    | false => simp [resize, hb]
    | true =>
      exfalso
      apply h
      simpa [Bool.and_eq_true, and_assoc] using hb
  · intro r c ht hr hc
    constructor
    · intro hok
      rw [resize_call ht hr hc]
      have hw : set_winsize (s.fd.getD 0) r c 0 0 =
          Except.ok (Event.setWinsize (s.fd.getD 0) r c 0 0) := by
        unfold set_winsize
        rw [if_pos]
        exact ⟨hok.1, hok.2.1, hok.2.2.1, hok.2.2.2,
          by norm_num, by norm_num, by norm_num, by norm_num⟩
      rw [hw]
    · intro hbad
      rw [resize_call ht hr hc]
      have hw : set_winsize (s.fd.getD 0) r c 0 0 =
          Except.error "struct.error: argument out of range for format H" := by
        unfold set_winsize
        rw [if_neg]
        intro hfull
        exact hbad ⟨hfull.1, hfull.2.1, hfull.2.2.1, hfull.2.2.2.1⟩
      rw [hw]

/-- C6 amended witness: a 40×120 resize against the running state performs
the ioctl; a resize with a missing field is a no-op; a negative row raises
out of the handler. -/
theorem resize_presence_only_witness :
    resize runningCfg (some 40) (some 120) =
      Except.ok [Event.setWinsize 3 40 120 0 0]
    ∧ resize runningCfg none (some 120) = Except.ok []
    ∧ resize runningCfg (some (-1)) (some 120) =
      Except.error "struct.error: argument out of range for format H" :=
  ⟨((resize_presence_only runningCfg (some 40) (some 120)).2 40 120
      (by decide) rfl rfl).1 (by norm_num),
   (resize_presence_only runningCfg none (some 120)).1 (by simp),
   ((resize_presence_only runningCfg (some (-1)) (some 120)).2 (-1) 120
      (by decide) rfl rfl).2 (by norm_num)⟩

/-- C7: with a pty attached, the pump iteration forwards every read byte
string, well-formed UTF-8 or not, without raising: the decode-tolerant text
is emitted as one output event; the tolerant decode agrees with the strict
decode whenever the bytes are well-formed (so valid output is preserved),
and an always-invalid byte such as 0xFF is dropped while the remaining
bytes are still decoded. -/
theorem decode_tolerant_forwarding (s : AppConfig) (bs cs : List Nat) :
    (truthy s.fd = true →
      (pumpIteration s true (ReadResult.ok bs)).2.2 = none
      ∧ Event.emitOutput (decodeIgnore bs) ∈
          (pumpIteration s true (ReadResult.ok bs)).2.1)
    ∧ (utf8DecodeStrict bs = some cs → decodeIgnore bs = cs)
    ∧ decodeIgnore (255 :: bs) = decodeIgnore bs := by
  refine ⟨?_, ?_, ?_⟩
  · intro ht
    simp [pumpIteration, ht]
  · intro hs
    unfold utf8DecodeStrict at hs
    split_ifs at hs with hall
    simpa [decodeIgnore] using hs
  · have h255 : decodeOne 255 bs = (none, bs) := rfl
    simp [decodeIgnore, decodeSeq_cons, h255]

/-- C7 witness: the byte string 0xFF 'a' is rejected by the strict decoder,
yet the pump forwards it as the event carrying "a", without error. -/
theorem decode_tolerant_forwarding_witness :
    (pumpIteration runningCfg true (ReadResult.ok [255, 97])).2.2 = none
    ∧ Event.emitOutput (decodeIgnore [255, 97]) ∈
        (pumpIteration runningCfg true (ReadResult.ok [255, 97])).2.1
    ∧ decodeIgnore [255, 97] = [97]
    ∧ utf8DecodeStrict [255, 97] = none :=
  ⟨((decode_tolerant_forwarding runningCfg [255, 97] []).1 (by decide)).1,
   ((decode_tolerant_forwarding runningCfg [255, 97] []).1 (by decide)).2,
   by decide, by decide⟩

/-- C8: the child branch's `while True:` body always continues — it contains
no exit — so after any number of passes the loop is still running and has
re-run the configured command exactly once per pass. -/
theorem child_loop_never_exits (s : AppConfig) (t : ChildTrace) (n : Nat) :
    (childBody s t).1 = LoopCtl.cont
    ∧ (childLoop s n t).runs = t.runs ++ List.replicate n s.cmd := by
  constructor
  · unfold childBody
    split_ifs <;> rfl
  · induction n generalizing t with
    | zero => simp [childLoop]
    | succ n ih =>
      have hb : (childBody s t).2.runs = t.runs ++ [s.cmd] := by
        unfold childBody
        split_ifs <;> rfl
      simp only [childLoop]
      rw [ih (childBody s t).2, hb]
      simp [List.replicate_succ, List.append_assoc]

/-- C9 counterexample: the source has no lock around the
check-then-fork of the connect handler, so under a preemptive interleaving
in which both handlers pass the `child_pid` check before either stores a
pid, `pty.fork` runs twice: two children are spawned, not one. -/
theorem race_double_spawn :
    spawnCount (raceRun (initialConfig ["bash"] false) (1, 3) (2, 4)
        [true, false, true, false]).events = 2
    ∧ spawnCount (raceRun (initialConfig ["bash"] false) (1, 3) (2, 4)
        [true, false, true, false]).events ≠ 1 := by
  decide

/-- C9 amended: spawn-once holds exactly when the two connect handlers run
serialized (each to completion before the other starts), as under
single-threaded cooperative dispatch: whichever handler runs first forks
and stores the pid, and the other's check then no-ops. -/
theorem race_serialized_single_spawn (cmd : List String) (useTmp : Bool)
    (forkA forkB : Nat × Nat) :
    (forkA.1 ≠ 0 →
      spawnCount (raceRun (initialConfig cmd useTmp) forkA forkB
          [true, true, false, false]).events = 1)
    ∧ (forkB.1 ≠ 0 →
      spawnCount (raceRun (initialConfig cmd useTmp) forkA forkB
          [false, false, true, true]).events = 1) := by
  obtain ⟨pA, fA⟩ := forkA
  obtain ⟨pB, fB⟩ := forkB
  constructor
  · intro hA
    simp only at hA
    simp [raceRun, List.foldl, raceStep, handlerStep, initialConfig,
      truthy, hA, spawnCount]
  · intro hB
    simp only at hB
    simp [raceRun, List.foldl, raceStep, handlerStep, initialConfig,
      truthy, hB, spawnCount]

/-- C9 amended witness at concrete fork results (1,3) and (2,4): either
serialized order spawns exactly once. -/
theorem race_serialized_single_spawn_witness :
    spawnCount (raceRun (initialConfig ["bash"] false) (1, 3) (2, 4)
        [true, true, false, false]).events = 1
    ∧ spawnCount (raceRun (initialConfig ["bash"] false) (1, 3) (2, 4)
        [false, false, true, true]).events = 1 :=
  ⟨(race_serialized_single_spawn ["bash"] false (1, 3) (2, 4)).1 (by decide),
   (race_serialized_single_spawn ["bash"] false (1, 3) (2, 4)).2 (by decide)⟩

/-- C10: once an fd and a nonzero child pid are stored, no operation of the
session core — connect, input, resize or pump iteration — ever clears or
replaces them (there is no teardown path), and as long as the stored fd is
truthy a delivered input still passes the attached check and writes to that
fd, whatever has happened in between (including the child having exited:
nothing ever unsets the handle). -/
theorem fd_pid_never_cleared (s : AppConfig) (f p : Nat) (ops : List Op)
    (hf : s.fd = some f) (hp : s.child_pid = some p) (hp0 : p ≠ 0) :
    (runOps s ops).1.fd = some f
    ∧ (runOps s ops).1.child_pid = some p
    ∧ (f ≠ 0 → ∀ bs : List Nat,
        pty_input (runOps s ops).1 bs = [Event.write f (encodeUtf8 bs)]) := by
  have h := runOps_preserves hp0 ops s hf hp
  refine ⟨h.1, h.2, ?_⟩
  intro hf0 bs
  simp [pty_input, h.1, truthy_some hf0]

/-- C10 witness: after a fatal pump read error, a malformed resize, a late
connect and an input, the running state still holds fd 3 and pid 7 and the
final input still writes to fd 3. -/
theorem fd_pid_never_cleared_witness :
    (runOps runningCfg [Op.pumpOp true (ReadResult.err 5),
        Op.resizeOp none (some 10), Op.connectOp 9 5,
        Op.inputOp [113]]).1.fd = some 3
    ∧ (runOps runningCfg [Op.pumpOp true (ReadResult.err 5),
        Op.resizeOp none (some 10), Op.connectOp 9 5,
        Op.inputOp [113]]).1.child_pid = some 7
    ∧ pty_input (runOps runningCfg [Op.pumpOp true (ReadResult.err 5),
        Op.resizeOp none (some 10), Op.connectOp 9 5,
        Op.inputOp [113]]).1 [113] = [Event.write 3 (encodeUtf8 [113])] := by
  have h := fd_pid_never_cleared runningCfg 3 7
    [Op.pumpOp true (ReadResult.err 5), Op.resizeOp none (some 10),
     Op.connectOp 9 5, Op.inputOp [113]] rfl rfl (by decide)
  exact ⟨h.1, h.2.1, h.2.2 (by decide) [113]⟩

end Pyxtermjs
